import Mathlib

set_option maxRecDepth 20000

/-!
Shallow embedding of the Nova terminal editor's editing core
(`src/buffer/buffer.rs` and `src/main.rs`), together with theorems settling
the specification claims.

Modelling conventions:
* The source stores document text as raw bytes (`Vec<u8>`) and decodes with a
  lossy UTF-8 policy only at presentation boundaries.  Every byte manipulated
  by the claims is ASCII, where one byte is one character, so bytes are
  embedded as `Char` (`Byte` below) and `String::from_utf8_lossy` is the
  identity on the byte run.
* Rust `usize` arithmetic is embedded as `Nat`; `saturating_sub` is `Nat`
  subtraction, which coincides with it.  Plain `a - b` on `usize` only occurs
  in the source where the surrounding guards ensure `b ≤ a`.
* Rust slicing `v[a..b]` is embedded by `sliceList`, which clamps instead of
  panicking; every use below sits behind the same bounds guards as the source.
* File-system effects (`std::fs::write`, `std::fs::read_to_string`) are
  elided: loading takes the file content as an argument and saving is modelled
  by the pure function computing the written bytes (`Buffer.savedContent`).
-/

namespace Nova

/-- One byte of document text (ASCII: one byte = one `Char`). -/
abbrev Byte := Char

/-- Rust slice `l[a..b]` (clamped; the source always slices in bounds). -/
def sliceList (l : List Byte) (a b : Nat) : List Byte :=
  (l.drop a).take (b - a)

/-- Offsets `i + 1` (shifted by `base`) of every newline byte in `l`;
the loop bodies of `GapBuffer::build_cache`. -/
def nlOffsets : List Byte → Nat → List Nat
  | [], _ => []
  | c :: rest, i =>
      if c = '\n' then (i + 1) :: nlOffsets rest (i + 1) else nlOffsets rest (i + 1)

/-- `pat.isPrefixOf text` as a plain boolean scanner (Rust pattern matching at
the head of a string slice). -/
def listStartsWith : List Byte → List Byte → Bool
  | [], _ => true
  | _ :: _, [] => false
  | p :: ps, c :: cs => p == c && listStartsWith ps cs

/-- `query` occurs as a contiguous substring of `text`. -/
def occursIn (text pat : List Byte) : Prop :=
  ∃ i, listStartsWith pat (text.drop i) = true

instance occursIn.dec (text pat : List Byte) : Decidable (occursIn text pat) :=
  decidable_of_iff
      ((List.range (text.length + 1)).any (fun i => listStartsWith pat (text.drop i)) = true) <| by
    rw [List.any_eq_true]
    constructor
    · rintro ⟨i, _, hi⟩
      exact ⟨i, hi⟩
    · rintro ⟨i, hi⟩
      refine ⟨min i text.length, List.mem_range.mpr (by omega), ?_⟩
      rcases le_or_lt text.length i with hle | hlt
      · rw [List.drop_eq_nil_of_le hle] at hi
        rw [min_eq_right hle, List.drop_eq_nil_of_le le_rfl]
        exact hi
      · rw [min_eq_left (by omega)]
        exact hi

/-- Rust `str::find`: byte index of the first occurrence of `pat`. -/
def firstOccur (pat : List Byte) : List Byte → Option Nat
  | [] => if pat.isEmpty then some 0 else none
  | c :: rest =>
      if listStartsWith pat (c :: rest) then some 0
      else (firstOccur pat rest).map (· + 1)

/-- Non-overlapping left-to-right match counter (`str::matches(pat).count()`
for a non-empty `pat`).  `fuel` is an upper bound on the scan length; the
callers pass `text.length`, which never runs out because each step consumes at
least one byte. -/
def countGo (pat : List Byte) : Nat → List Byte → Nat
  | _, [] => 0
  | 0, _ :: _ => 0
  | fuel + 1, c :: rest =>
      if listStartsWith pat (c :: rest) then
        1 + countGo pat fuel ((c :: rest).drop pat.length)
      else
        countGo pat fuel rest

/-- Rust `text.matches(pat).count()`: an empty pattern matches at every char
boundary (`len + 1` times). -/
def countMatches (text pat : List Byte) : Nat :=
  if pat.isEmpty then text.length + 1 else countGo pat text.length text

/-- Non-overlapping left-to-right replacement (`str::replace` for a non-empty
pattern), with the same fuel discipline as `countGo`. -/
def replaceGo (pat new : List Byte) : Nat → List Byte → List Byte
  | _, [] => []
  | 0, l => l
  | fuel + 1, c :: rest =>
      if listStartsWith pat (c :: rest) then
        new ++ replaceGo pat new fuel ((c :: rest).drop pat.length)
      else
        c :: replaceGo pat new fuel rest

/-- Rust `str::replace` with an empty pattern interleaves `new` at every char
boundary. -/
def replaceEmptyPat (new : List Byte) : List Byte → List Byte
  | [] => new
  | c :: rest => new ++ c :: replaceEmptyPat new rest

/-- Rust `text.replace(pat, new)`. -/
def rustReplace (text pat new : List Byte) : List Byte :=
  if pat.isEmpty then replaceEmptyPat new text else replaceGo pat new text.length text

/-- Rust `str::trim_end_matches('\n')`: removes every trailing newline byte. -/
def trimEndNewlines (l : List Byte) : List Byte :=
  (l.reverse.dropWhile (· = '\n')).reverse

/-- Rust `char::is_control` (Unicode Cc: U+0000..=U+001F and U+007F..=U+009F). -/
def charIsControl (c : Char) : Bool :=
  c.toNat < 32 || (127 ≤ c.toNat && c.toNat ≤ 159)

/-! ## Byte Store: `GapBuffer` (src/buffer/buffer.rs lines 3–240) -/

/-- The gap buffer: document bytes split into the runs `before` and `after`,
plus the cached line-start offsets. -/
structure GapBuffer where
  before : List Byte
  after : List Byte
  line_offsets : List Nat
deriving DecidableEq

/-- `GapBuffer::new`. -/
def GapBuffer.new : GapBuffer := ⟨[], [], [0]⟩

/-- `GapBuffer::len`. -/
def GapBuffer.len (gb : GapBuffer) : Nat := gb.before.length + gb.after.length

/-- `GapBuffer::build_cache`: seed offset 0, record the offset after every
newline in `before` then in `after`, close with the total length sentinel. -/
def GapBuffer.build_cache (gb : GapBuffer) : GapBuffer :=
  { gb with line_offsets :=
      0 :: ((nlOffsets gb.before 0 ++ nlOffsets gb.after gb.before.length) ++ [gb.len]) }

/-- `GapBuffer::from_string`. -/
def GapBuffer.from_string (s : List Byte) : GapBuffer :=
  GapBuffer.build_cache ⟨s, [], [0]⟩

/-- `GapBuffer::get_range` (returns the bytes of `[start, end)`, stitched
across the gap; decode elided, see the header note). -/
def GapBuffer.get_range (gb : GapBuffer) (start e : Nat) : List Byte :=
  let total := gb.len
  let start := min start total
  let e := min e total
  if e ≤ start then []
  else
    let before_end := gb.before.length
    if start < before_end ∧ e ≤ before_end then
      sliceList gb.before start e
    else if before_end ≤ start then
      let after_start := start - before_end
      let after_end := min (e - before_end) gb.after.length
      sliceList gb.after after_start after_end
    else
      gb.before.drop start ++ gb.after.take (min (e - before_end) gb.after.length)

/-- `GapBuffer::move_gap`, transcribed exactly as written: when moving left the
relocated bytes of `before` are `Vec::append`ed to the END of `after`, and when
moving right the relocated prefix of `after` is prepended to `before` while
`after` is cleared wholesale. -/
def GapBuffer.move_gap (gb : GapBuffer) (pos : Nat) : GapBuffer :=
  let pos := min pos gb.len
  let gap_pos := gb.before.length
  if pos < gap_pos then
    { gb with before := gb.before.take pos, after := gb.after ++ gb.before.drop pos }
  else if gap_pos < pos then
    { gb with before := gb.after.take (pos - gap_pos) ++ gb.before, after := [] }
  else gb

/-- `GapBuffer::insert`. -/
def GapBuffer.insert (gb : GapBuffer) (pos : Nat) (text : List Byte) : GapBuffer :=
  let gb := gb.move_gap pos
  GapBuffer.build_cache { gb with before := gb.before ++ text }

/-- `GapBuffer::delete` (drains up to `len` bytes from the front of `after`). -/
def GapBuffer.delete (gb : GapBuffer) (pos len : Nat) : GapBuffer :=
  let gb := gb.move_gap pos
  let del_len := min len gb.after.length
  GapBuffer.build_cache { gb with after := gb.after.drop del_len }

/-- `GapBuffer::get_line`, transcribed branch for branch. -/
def GapBuffer.get_line (gb : GapBuffer) (line_num : Nat) : List Byte :=
  if gb.line_offsets.length ≤ 1 then []
  else if gb.line_offsets.length - 1 ≤ line_num then []
  else
    let start := gb.line_offsets.getD line_num 0
    let e := gb.line_offsets.getD (line_num + 1) 0
    if e = 0 then []
    else if start < gb.before.length then
      if e ≤ gb.before.length then
        let actual_end := if 0 < e ∧ gb.before.getD (e - 1) ' ' = '\n' then e - 1 else e
        if start < actual_end then sliceList gb.before start actual_end else []
      else
        let before_part_end := min gb.before.length e
        let actual_before_end :=
          if start < before_part_end ∧ before_part_end ≤ gb.before.length ∧
              gb.before.getD (before_part_end - 1) ' ' = '\n'
          then before_part_end - 1 else before_part_end
        let before_part := sliceList gb.before start actual_before_end
        let after_end := min (e - gb.before.length) gb.after.length
        let actual_after_end :=
          if 0 < after_end ∧ gb.after.getD (after_end - 1) ' ' = '\n'
          then after_end - 1 else after_end
        before_part ++ gb.after.take actual_after_end
    else
      let after_start := start - gb.before.length
      let after_end := min (e - gb.before.length) gb.after.length
      if after_start < gb.after.length then
        let actual_end :=
          if after_start < after_end ∧ gb.after.getD (after_end - 1) ' ' = '\n'
          then after_end - 1 else after_end
        if after_start < actual_end then sliceList gb.after after_start actual_end else []
      else []

/-- `GapBuffer::num_lines`. -/
def GapBuffer.num_lines (gb : GapBuffer) : Nat :=
  max gb.line_offsets.length 1 - 1

/-- `GapBuffer::to_string`: the concatenation of the two runs (lossy decode
elided, see the header note). -/
def GapBuffer.to_string (gb : GapBuffer) : List Byte :=
  gb.before ++ gb.after

/-! ## Text Document: `Buffer` (src/buffer/buffer.rs lines 242–449)

The `language` field (a display tag derived from the path extension) is
omitted: it is read only by the renderer and no claim concerns it. -/

/-- The text document: gap buffer plus path / modified metadata and the
mirrored `line_offsets` cache. -/
structure Buffer where
  text : GapBuffer
  path : Option String
  is_modified : Bool
  line_offsets : List Nat
deriving DecidableEq

/-- `Buffer::new`: a fresh document holding a single newline. -/
def Buffer.new : Buffer :=
  let text := GapBuffer.new.insert 0 ['\n']
  { text := text, path := none, is_modified := false, line_offsets := text.line_offsets }

/-- `Buffer::from_file` with the disk read elided: `content` is the file's
bytes; a trailing newline is appended when missing, exactly as in the source. -/
def Buffer.from_file (path : String) (content : List Byte) : Buffer :=
  let content := if content.getLast? = some '\n' then content else content ++ ['\n']
  let text := GapBuffer.from_string content
  { text := text, path := some path, is_modified := false, line_offsets := text.line_offsets }

/-- `Buffer::insert`. -/
def Buffer.insert (b : Buffer) (pos : Nat) (text : List Byte) : Buffer :=
  let t := b.text.insert pos text
  { b with text := t, line_offsets := t.line_offsets, is_modified := true }

/-- `Buffer::delete`. -/
def Buffer.delete (b : Buffer) (pos len : Nat) : Buffer :=
  let t := b.text.delete pos len
  { b with text := t, line_offsets := t.line_offsets, is_modified := true }

/-- `Buffer::get_line`. -/
def Buffer.get_line (b : Buffer) (line : Nat) : List Byte :=
  b.text.get_line line

/-- `Buffer::num_lines`. -/
def Buffer.num_lines (b : Buffer) : Nat :=
  b.text.num_lines

/-- `Buffer::line_len`: `end - start` over the offset cache, where `end` is
the next line start (or the total length for the last entry).  Note: the
source performs no subtraction of the line-terminator byte. -/
def Buffer.line_len (b : Buffer) (line : Nat) : Nat :=
  if b.line_offsets.length ≤ line then 0
  else
    let start := b.line_offsets.getD line 0
    let e :=
      if line + 1 < b.line_offsets.length then b.line_offsets.getD (line + 1) 0
      else b.text.len
    e - start

/-- `Buffer::total_len`. -/
def Buffer.total_len (b : Buffer) : Nat := b.text.len

/-- `Buffer::get_cursor_pos`: line start plus the column clamped to the
(terminator-inclusive) line span. -/
def Buffer.get_cursor_pos (b : Buffer) (line col : Nat) : Nat :=
  if b.line_offsets.length ≤ line then b.text.len
  else
    let offset := b.line_offsets.getD line 0
    let line_len :=
      if line + 1 < b.line_offsets.length then b.line_offsets.getD (line + 1) 0 - offset
      else 0
    offset + min col line_len

/-- `Buffer::insert_newline`. -/
def Buffer.insert_newline (b : Buffer) (line col : Nat) : Buffer :=
  let pos := b.get_cursor_pos line col
  b.insert pos ['\n']

/-- The scanning loop of `Buffer::get_line_col`: returns the first index `i`
(counted from `k`) whose successor offset strictly exceeds `pos`. -/
def glcLoop (pos : Nat) : List Nat → Nat → Option (Nat × Nat)
  | o1 :: o2 :: rest, i =>
      if pos < o2 then some (i, pos - o1) else glcLoop pos (o2 :: rest) (i + 1)
  | _, _ => none

/-- `Buffer::get_line_col`. -/
def Buffer.get_line_col (b : Buffer) (pos : Nat) : Nat × Nat :=
  let pos := min pos b.text.len
  match glcLoop pos b.line_offsets 0 with
  | some r => r
  | none =>
      match b.line_offsets.getLast? with
      | some last => (b.line_offsets.length - 1, pos - last)
      | none => (0, pos)

/-- The bytes `Buffer::save` / `Buffer::save_as` write to disk: the document
text with `trim_end_matches('\n')` applied (the write itself is elided). -/
def Buffer.savedContent (b : Buffer) : List Byte :=
  trimEndNewlines b.text.to_string

/-- `Buffer::save` (disk write elided; the success path clears the modified
flag, and a pathless document writes nothing). -/
def Buffer.save (b : Buffer) : Buffer :=
  if b.path.isSome then { b with is_modified := false } else b

/-- `Buffer::save_as` (disk write and language re-derivation elided; the
success path records the path and clears the modified flag). -/
def Buffer.save_as (b : Buffer) (path : String) : Buffer :=
  { b with path := some path, is_modified := false }

/-- The `search_start` computation of `Buffer::find`: the loop breaks at
`i == from_line`, leaving 0 when `from_line` is out of range. -/
def Buffer.searchStart (b : Buffer) (from_line from_col : Nat) : Nat :=
  if from_line < b.line_offsets.length then
    b.line_offsets.getD from_line 0 + min from_col (b.get_line from_line).length
  else 0

/-- `Buffer::find`: forward search from `search_start`, then a wrap-around
search over the prefix `[0, search_start)`. -/
def Buffer.find (b : Buffer) (query : List Byte) (from_line from_col : Nat) :
    Option (Nat × Nat) :=
  if query.isEmpty then none
  else
    match firstOccur query (b.text.to_string.drop (b.searchStart from_line from_col)) with
    | some pos => some (b.get_line_col (b.searchStart from_line from_col + pos))
    | none =>
        if 0 < b.searchStart from_line from_col then
          match firstOccur query (b.text.to_string.take (b.searchStart from_line from_col)) with
          | some pos => some (b.get_line_col pos)
          | none => none
        else none

/-- `Buffer::replace`: rebuilds the gap buffer from the replaced text,
re-appends a trailing newline when missing, and returns the match count. -/
def Buffer.replace (b : Buffer) (old new : List Byte) : Buffer × Nat :=
  let text := b.text.to_string
  let count := countMatches text old
  let new_text := rustReplace text old new
  let t1 := GapBuffer.from_string new_text
  let t2 := if new_text.getLast? = some '\n' then t1 else t1.insert t1.len ['\n']
  ({ b with text := t2, line_offsets := t2.line_offsets, is_modified := true }, count)

/-! ## Edit Operation Log: `EditOp` / `UndoHistory` (src/main.rs lines 26–129) -/

/-- `EditOp` (the `Replace` variant is dead code in the source but is
transcribed for completeness). -/
inductive EditOp
  | Insert (pos : Nat) (text : List Byte)
  | Delete (pos : Nat) (text : List Byte)
  | Replace (pos old_len : Nat) (old_text new_text : List Byte)
deriving DecidableEq

/-- `UndoHistory`: the operation list plus the redo cursor index. -/
structure UndoHistory where
  ops : List EditOp
  pos : Nat
deriving DecidableEq

/-- `UndoHistory::new`. -/
def UndoHistory.new : UndoHistory := ⟨[], 0⟩

/-- `UndoHistory::push`: truncate the redo tail, append, advance, evict the
oldest entry (`Vec::remove(0)`) past the 1000-entry cap. -/
def UndoHistory.push (h : UndoHistory) (op : EditOp) : UndoHistory :=
  let ops := h.ops.take h.pos ++ [op]
  let pos := h.pos + 1
  if 1000 < ops.length then ⟨ops.drop 1, pos - 1⟩ else ⟨ops, pos⟩

/-- `UndoHistory::undo`: returns (reported success, new history, new buffer).
The `none` arm is unreachable whenever `pos ≤ ops.length` (there the source
would index out of bounds and panic). -/
def UndoHistory.undo (h : UndoHistory) (b : Buffer) : Bool × UndoHistory × Buffer :=
  if h.pos = 0 then (false, h, b)
  else
    let p := h.pos - 1
    let h' : UndoHistory := ⟨h.ops, p⟩
    match h.ops[p]? with
    | some (.Insert pos text) => (true, h', b.delete pos text.length)
    | some (.Delete pos text) => (true, h', b.insert pos text)
    | some (.Replace pos _ old_text new_text) =>
        (true, h', (b.delete pos new_text.length).insert pos old_text)
    | none => (false, h', b)

/-- `UndoHistory::redo` (same shape; note the source re-applies a `Replace`
by inserting `new_text` without deleting `old_text` first). -/
def UndoHistory.redo (h : UndoHistory) (b : Buffer) : Bool × UndoHistory × Buffer :=
  if h.ops.length ≤ h.pos then (false, h, b)
  else
    let h' : UndoHistory := ⟨h.ops, h.pos + 1⟩
    match h.ops[h.pos]? with
    | some (.Insert pos text) => (true, h', b.insert pos text)
    | some (.Delete pos text) => (true, h', b.delete pos text.length)
    | some (.Replace pos _ _ new_text) => (true, h', b.insert pos new_text)
    | none => (false, h, b)

/-- `UndoHistory::clear`. -/
def UndoHistory.clear (_h : UndoHistory) : UndoHistory := ⟨[], 0⟩

/-! ## Mode Machine and Editor Controller (src/main.rs lines 131–1002)

Omitted editor fields, all write-only with respect to everything retained:
`scroll_offset` / `screen_width` / `screen_height` (viewport), the cursor
blink timer, the theme, the tip string, and the display toggles
(`show_help`, `show_line_numbers`, `word_wrap`).  Accordingly
`update_scroll`, the blink bookkeeping, and the toggle key arms are elided,
as are `open_file` (directory scan plus disk load) and the
`PageUp`/`PageDown` arms (they read the omitted screen height). -/

/-- `EditorMode` (field-for-field as in the source). -/
inductive EditorMode
  | Normal
  | Search (query : String) (case_sensitive backward : Bool)
  | Replace (search replace : String) (case_sensitive all confirmed : Bool)
  | GoToLine
  | Confirm (title message : String) (options : List String) (selected : Nat)
  | Input (title input : String) (history : List String)
  | Help
deriving DecidableEq

/-- `PendingAction`. -/
inductive PendingAction
  | SaveAndQuit
  | QuitWithoutSave
  | SaveAs (filename : String)
  | ReplaceAll (search replace : String)
deriving DecidableEq

/-- Crossterm key codes, restricted to the keys the handlers match on. -/
inductive KeyCode
  | Char (c : Char)
  | Enter
  | Backspace
  | Tab
  | Esc
  | Up
  | Down
  | Left
  | Right
  | Home
  | End
deriving DecidableEq

/-- A key press event; `ctrl`/`shift` model the `KeyModifiers` set (no claim
involves the Alt modifier).  Only `Press` events reach the handlers. -/
structure KeyEvent where
  code : KeyCode
  ctrl : Bool
  shift : Bool
deriving DecidableEq

/-- Editing settings.  `tab_size` and `use_spaces` are from
`src/config/settings.rs`.  `auto_indent` is Modelled from the spec: the key
handler reads `self.settings.auto_indent` (src/main.rs line 621) but the
`Settings` struct in src/config/settings.rs declares no such field; the spec
lists `auto_indent: boolean` among the settings collaborator's fields. -/
structure Settings where
  tab_size : Nat
  use_spaces : Bool
  auto_indent : Bool
deriving DecidableEq

/-- The editor controller state (see the section header for omitted
render-only fields). -/
structure Editor where
  buffer : Buffer
  cursor_line : Nat
  cursor_col : Nat
  settings : Settings
  should_quit : Bool
  undo : UndoHistory
  mode : EditorMode
  pending_action : Option PendingAction
  quit_after_save : Bool
deriving DecidableEq

/-- `Editor::clamp_cursor`. -/
def Editor.clamp_cursor (e : Editor) : Editor :=
  let num_lines := e.buffer.num_lines - 1
  let cl := min e.cursor_line num_lines
  { e with cursor_line := cl, cursor_col := min e.cursor_col (e.buffer.line_len cl) }

/-- `Editor::get_indent`: leading run of spaces/tabs of the given line. -/
def Editor.get_indent (e : Editor) (line : Nat) : List Byte :=
  (e.buffer.get_line line).takeWhile (fun c => c == ' ' || c == '\t')

/-- `Editor::goto_line` (1-based; out-of-range input is a no-op, not a
clamp). -/
def Editor.goto_line (e : Editor) (line_num : Nat) : Editor :=
  let num_lines := e.buffer.num_lines
  if 0 < line_num ∧ line_num ≤ num_lines then
    Editor.clamp_cursor { e with cursor_line := line_num - 1, cursor_col := 0 }
  else e

/-- `Editor::handle_normal`.  Arms are transcribed in source order except
where patterns are disjoint; elided arms (see the section header) fall to the
final catch-all, exactly as `_ => {}` would leave the retained fields. -/
def Editor.handle_normal (e : Editor) (k : KeyEvent) : Editor :=
  let e1 : Editor :=
    match k.code, k.ctrl, k.shift with
    | .Char 'h', true, false => { e with mode := .Help }
    | .Char 'q', true, false =>
        if e.buffer.path.isNone then
          { e with quit_after_save := true,
                   mode := .Input "Save As" "untitled.txt" [] }
        else if e.buffer.is_modified then
          { e with mode := .Confirm "Quit" "Save changes?" ["Yes", "No", "Cancel"] 0 }
        else { e with should_quit := true }
    | .Char 's', true, false =>
        if e.buffer.path.isNone then
          { e with mode := .Input "Save As" "untitled.txt" [] }
        else { e with buffer := e.buffer.save }
    | .Char 'z', true, false =>
        let r := e.undo.undo e.buffer
        let e := { e with undo := r.2.1, buffer := r.2.2 }
        if r.1 then
          let lc := e.buffer.get_line_col 0
          { e with cursor_line := lc.1, cursor_col := lc.2 }
        else e
    | .Char 'y', true, false =>
        let r := e.undo.redo e.buffer
        let e := { e with undo := r.2.1, buffer := r.2.2 }
        if r.1 then
          let lc := e.buffer.get_line_col 0
          { e with cursor_line := lc.1, cursor_col := lc.2 }
        else e
    | .Char 'f', true, false => { e with mode := .Search "" false false }
    | .Char '\\', true, false => { e with mode := .Replace "" "" false false false }
    | .Char 'g', true, false => { e with mode := .GoToLine }
    | .Up, _, _ =>
        if 0 < e.cursor_line then
          let e := { e with cursor_line := e.cursor_line - 1 }
          let indent := e.get_indent e.cursor_line
          if e.cursor_col < indent.length ∧ indent ≠ [] then
            { e with cursor_col := indent.length }
          else e
        else e
    | .Down, _, _ =>
        if e.cursor_line < e.buffer.num_lines - 1 then
          let e := { e with cursor_line := e.cursor_line + 1 }
          let indent := e.get_indent e.cursor_line
          if e.cursor_col < indent.length ∧ indent ≠ [] then
            { e with cursor_col := indent.length }
          else e
        else e
    | .Left, _, _ =>
        if 0 < e.cursor_col then { e with cursor_col := e.cursor_col - 1 }
        else if 0 < e.cursor_line then
          { e with cursor_line := e.cursor_line - 1,
                   cursor_col := e.buffer.line_len (e.cursor_line - 1) }
        else e
    | .Right, _, _ =>
        let line_len := e.buffer.line_len e.cursor_line
        if e.cursor_col < line_len then { e with cursor_col := e.cursor_col + 1 }
        else if e.cursor_line < e.buffer.num_lines - 1 then
          { e with cursor_line := e.cursor_line + 1, cursor_col := 0 }
        else e
    | .Home, _, _ =>
        let indent := e.get_indent e.cursor_line
        if indent.length < e.cursor_col then { e with cursor_col := indent.length }
        else { e with cursor_col := 0 }
    | .End, _, _ => { e with cursor_col := e.buffer.line_len e.cursor_line }
    | .Enter, _, _ =>
        let indent := e.get_indent e.cursor_line
        let e := { e with buffer := e.buffer.insert_newline e.cursor_line e.cursor_col }
        let op : EditOp := .Insert (e.buffer.get_cursor_pos e.cursor_line 0) ['\n']
        let e := { e with undo := e.undo.push op }
        let e := { e with cursor_line := e.cursor_line + 1, cursor_col := 0 }
        if e.settings.auto_indent ∧ indent ≠ [] then
          { e with buffer := e.buffer.insert (e.buffer.get_cursor_pos e.cursor_line 0) indent,
                   cursor_col := indent.length }
        else e
    | .Backspace, _, _ =>
        if 0 < e.cursor_col then
          let pos := e.buffer.get_cursor_pos e.cursor_line (e.cursor_col - 1)
          let ch := (e.buffer.get_line e.cursor_line).getD (e.cursor_col - 1) ' '
          let e := { e with buffer := e.buffer.delete pos 1 }
          let e := { e with undo := e.undo.push (.Delete pos [ch]) }
          { e with cursor_col := e.cursor_col - 1 }
        else if 0 < e.cursor_line then
          let prev_line_len := e.buffer.line_len (e.cursor_line - 1)
          let b := e.buffer.delete (e.buffer.get_cursor_pos e.cursor_line 0 - 1) 1
          let e := { e with buffer := b }
          { e with cursor_line := e.cursor_line - 1, cursor_col := prev_line_len }
        else e
    | .Tab, _, _ =>
        if e.settings.use_spaces then
          let spaces := List.replicate e.settings.tab_size ' '
          let pos := e.buffer.get_cursor_pos e.cursor_line e.cursor_col
          let e := { e with buffer := e.buffer.insert pos spaces }
          let e := { e with undo := e.undo.push (.Insert pos spaces) }
          { e with cursor_col := e.cursor_col + spaces.length }
        else
          let pos := e.buffer.get_cursor_pos e.cursor_line e.cursor_col
          let e := { e with buffer := e.buffer.insert pos ['\t'] }
          let e := { e with undo := e.undo.push (.Insert pos ['\t']) }
          { e with cursor_col := e.cursor_col + 1 }
    | .Char 'k', true, false =>
        if 1 < e.buffer.num_lines then
          let start_pos := e.buffer.get_cursor_pos e.cursor_line 0
          let line_len := e.buffer.line_len e.cursor_line
          let deleted := e.buffer.get_line e.cursor_line
          let e := { e with buffer := e.buffer.delete start_pos (line_len + 1) }
          let e :=
            if e.buffer.num_lines - 1 ≤ e.cursor_line then
              { e with cursor_line := e.buffer.num_lines - 1 }
            else e
          let e := { e with cursor_col := min e.cursor_col (e.buffer.line_len e.cursor_line) }
          { e with undo := e.undo.push (.Delete start_pos deleted) }
        else e
    | .Char 'u', true, false =>
        let start_pos := e.buffer.get_cursor_pos e.cursor_line 0
        if 0 < e.cursor_col then
          let deleted := (e.buffer.get_line e.cursor_line).take e.cursor_col
          let e := { e with buffer := e.buffer.delete start_pos deleted.length }
          let e := { e with undo := e.undo.push (.Delete start_pos deleted) }
          { e with cursor_col := 0 }
        else e
    | .Char 'd', true, false =>
        let pos := e.buffer.get_cursor_pos e.cursor_line e.cursor_col
        if pos < e.buffer.total_len - 1 then
          let ch := e.buffer.text.get_range pos (pos + 1)
          let e := { e with buffer := e.buffer.delete pos 1 }
          { e with undo := e.undo.push (.Delete pos ch) }
        else e
    | .Char c, false, _ =>
        if ¬ charIsControl c then
          let pos := e.buffer.get_cursor_pos e.cursor_line e.cursor_col
          let e := { e with buffer := e.buffer.insert pos [c] }
          let e := { e with undo := e.undo.push (.Insert pos [c]) }
          { e with cursor_col := e.cursor_col + 1 }
        else e
    | _, _, _ => e
  e1.clamp_cursor

/-- `Editor::handle_search_owned`: returns the editor plus
`(query, case_sensitive, backward, should_exit)`. -/
def Editor.handle_search_owned (e : Editor) (k : KeyEvent)
    (query : String) (case_sensitive backward : Bool) :
    Editor × String × Bool × Bool × Bool :=
  match k.code, k.ctrl, k.shift with
  | .Esc, _, _ => (e, query, case_sensitive, backward, true)
  | .Enter, _, _ =>
      if query ≠ "" then
        match e.buffer.find query.data e.cursor_line e.cursor_col with
        | some lc =>
            (Editor.clamp_cursor { e with cursor_line := lc.1, cursor_col := lc.2 },
             query, case_sensitive, backward, true)
        | none => (e, query, case_sensitive, backward, true)
      else (e, query, case_sensitive, backward, true)
  | .Backspace, _, _ => (e, query.dropRight 1, case_sensitive, backward, false)
  | .Char 'c', true, false => (e, query, !case_sensitive, backward, false)
  | .Char 'r', true, false => (e, query, case_sensitive, !backward, false)
  | .Char c, false, _ =>
      if ¬ charIsControl c then
        let query := query.push c
        match e.buffer.find query.data e.cursor_line e.cursor_col with
        | some lc =>
            (Editor.clamp_cursor { e with cursor_line := lc.1, cursor_col := lc.2 },
             query, case_sensitive, backward, false)
        | none => (e, query, case_sensitive, backward, false)
      else (e, query, case_sensitive, backward, false)
  | _, _, _ => (e, query, case_sensitive, backward, false)

/-- `Editor::handle_replace_owned`: returns the editor plus
`(search, replace, case_sensitive, all, confirmed, action, should_exit)`. -/
def Editor.handle_replace_owned (e : Editor) (k : KeyEvent)
    (search replace : String) (case_sensitive all confirmed : Bool) :
    Editor × String × String × Bool × Bool × Bool × Option PendingAction × Bool :=
  match k.code, k.ctrl, k.shift with
  | .Esc, _, _ => (e, search, replace, case_sensitive, all, confirmed, none, true)
  | .Enter, _, _ =>
      if confirmed then
        if all then
          (e, search, replace, case_sensitive, all, confirmed,
           some (.ReplaceAll search replace), true)
        else
          let r := e.buffer.replace search.data replace.data
          ({ e with buffer := r.1, undo := e.undo.clear },
           search, replace, case_sensitive, all, confirmed, none, true)
      else (e, search, replace, case_sensitive, all, true, none, false)
  | .Tab, _, _ =>
      if search = "" then
        (e, ⟨e.buffer.get_line e.cursor_line⟩, replace, case_sensitive, all, confirmed,
         none, false)
      else (e, search, "", case_sensitive, all, confirmed, none, false)
  | .Backspace, _, _ =>
      if replace = "" ∧ search ≠ "" then
        (e, search.dropRight 1, replace, case_sensitive, all, confirmed, none, false)
      else (e, search, replace.dropRight 1, case_sensitive, all, confirmed, none, false)
  | .Char 'a', true, false =>
      (e, search, replace, case_sensitive, true, confirmed, none, false)
  | .Char c, false, _ =>
      if ¬ charIsControl c then
        if replace = "" ∧ search ≠ "" ∧ ¬ confirmed then
          (e, search, replace.push c, case_sensitive, all, confirmed, none, false)
        else if confirmed then
          (e, search, replace.push c, case_sensitive, all, confirmed, none, false)
        else (e, search.push c, replace, case_sensitive, all, confirmed, none, false)
      else (e, search, replace, case_sensitive, all, confirmed, none, false)
  | _, _, _ => (e, search, replace, case_sensitive, all, confirmed, none, false)

/-- `Editor::handle_goto_owned`: `(line_num, should_exit)`.  Every key except
Esc/Enter is ignored, and `line_num` is `None` in every arm. -/
def Editor.handle_goto_owned (_e : Editor) (k : KeyEvent) : Option Nat × Bool :=
  match k.code with
  | .Esc => (none, true)
  | .Enter => (none, true)
  | _ => (none, false)

/-- `Editor::handle_confirm_owned`: returns the editor plus
`(title, message, options, selected, action)`. -/
def Editor.handle_confirm_owned (e : Editor) (k : KeyEvent)
    (title message : String) (options : List String) (selected : Nat) :
    Editor × String × String × List String × Nat × Option PendingAction :=
  match k.code with
  | .Up =>
      (e, title, message, options, if 0 < selected then selected - 1 else selected, none)
  | .Down =>
      (e, title, message, options,
       if selected < options.length - 1 then selected + 1 else selected, none)
  | .Enter =>
      match options.getD selected "" with
      | "Yes" =>
          if e.buffer.path.isSome then
            (e, title, message, options, selected, some .SaveAndQuit)
          else
            ({ e with quit_after_save := true }, title, message, options, selected, none)
      | "No" => (e, title, message, options, selected, some .QuitWithoutSave)
      | _ => (e, title, message, options, selected, none)
  | _ => (e, title, message, options, selected, none)

/-- `Editor::handle_input_owned`: returns the editor plus
`(title, input, history, action)`. -/
def Editor.handle_input_owned (e : Editor) (k : KeyEvent)
    (title input : String) (history : List String) :
    Editor × String × String × List String × Option PendingAction :=
  match k.code with
  | .Enter =>
      (e, title, input, (if input ≠ "" then history ++ [input] else history),
       some (.SaveAs input))
  | .Esc => (e, title, input, history, none)
  | .Backspace => (e, title, input.dropRight 1, history, none)
  | .Char c =>
      if ¬ charIsControl c then (e, title, input.push c, history, none)
      else (e, title, input, history, none)
  | .Tab => (e, title, input.push '\t', history, none)
  | _ => (e, title, input, history, none)

/-- The deferred-action drain at the end of `Editor::handle_key`
(`self.pending_action.take()`). -/
def Editor.drainPending (e : Editor) : Editor :=
  match e.pending_action with
  | none => e
  | some act =>
      let e := { e with pending_action := none }
      match act with
      | .SaveAndQuit => { e with buffer := e.buffer.save, should_quit := true }
      | .QuitWithoutSave =>
          { e with buffer := { e.buffer with is_modified := false }, should_quit := true }
      | .SaveAs filename =>
          let e := { e with buffer := e.buffer.save_as filename }
          if e.quit_after_save then
            { e with should_quit := true, quit_after_save := false }
          else e
      | .ReplaceAll search repl =>
          let r := e.buffer.replace search.data repl.data
          { e with buffer := r.1, undo := e.undo.clear }

/-- `Editor::handle_key`: `std::mem::replace` swaps the mode out for `Normal`,
the per-mode handler runs, the mode is written back (or not — the `GoToLine`
and `Help` arms leave the `Normal` placeholder in place on ignored keys), and
the pending action is drained. -/
def Editor.handle_key (e : Editor) (k : KeyEvent) : Editor :=
  let mode := e.mode
  let e := { e with mode := EditorMode.Normal }
  let e :=
    match mode with
    | .Normal => e.handle_normal k
    | .Search query cs bw =>
        let r := e.handle_search_owned k query cs bw
        let e := r.1
        if r.2.2.2.2 then { e with mode := .Normal }
        else { e with mode := .Search r.2.1 r.2.2.1 r.2.2.2.1 }
    | .Replace s rp cs all conf =>
        let r := e.handle_replace_owned k s rp cs all conf
        let e := r.1
        let act := r.2.2.2.2.2.2.1
        let should_exit := r.2.2.2.2.2.2.2
        let e :=
          match act with
          | some a => { e with pending_action := some a }
          | none => e
        if should_exit then { e with mode := .Normal }
        else { e with mode := .Replace r.2.1 r.2.2.1 r.2.2.2.1 r.2.2.2.2.1 r.2.2.2.2.2.1 }
    | .GoToLine =>
        let r := e.handle_goto_owned k
        if r.2 then { e with mode := .Normal }
        else
          match r.1 with
          | some num => { e.goto_line num with mode := .Normal }
          | none => e
    | .Confirm t m opts sel =>
        let r := e.handle_confirm_owned k t m opts sel
        let e := r.1
        let opts' := r.2.2.2.1
        let sel' := r.2.2.2.2.1
        let act := r.2.2.2.2.2
        let is_yes := opts'.getD sel' "" = "Yes"
        let e :=
          match act with
          | some a => { e with pending_action := some a }
          | none => e
        if act.isNone ∧ k.code = KeyCode.Enter ∧ is_yes then
          { e with quit_after_save := true,
                   mode := .Input "Save As" "untitled.txt" [] }
        else if k.code = KeyCode.Enter then { e with mode := .Normal }
        else if k.code = KeyCode.Esc then { e with mode := .Normal }
        else { e with mode := .Confirm r.2.1 r.2.2.1 opts' sel' }
    | .Input t inp hist =>
        let r := e.handle_input_owned k t inp hist
        let e := r.1
        let e :=
          match r.2.2.2.2 with
          | some a => { e with pending_action := some a }
          | none => e
        if k.code ≠ KeyCode.Enter ∧ k.code ≠ KeyCode.Esc then
          { e with mode := .Input r.2.1 r.2.2.1 r.2.2.2.1 }
        else { e with mode := .Normal }
    | .Help =>
        if k.code = KeyCode.Esc ∨ (k.code = KeyCode.Char 'h' ∧ k.ctrl = true ∧ k.shift = false) then
          { e with mode := .Normal }
        else e
  e.drainPending

/-! ## Concrete states used by the claim theorems -/

/-- Default-shaped settings (tab 4, spaces, auto-indent on). -/
def stdSettings : Settings := ⟨4, true, true⟩

/-- An editor over the given buffer in the given mode, fresh otherwise. -/
def mkEditor (b : Buffer) (line col : Nat) (m : EditorMode) : Editor :=
  { buffer := b, cursor_line := line, cursor_col := col, settings := stdSettings,
    should_quit := false, undo := UndoHistory.new, mode := m,
    pending_action := none, quit_after_save := false }

/-- The document `"abc\n"` as loaded from disk. -/
def docABC : Buffer := Buffer.from_file "t.txt" "abc\n".data

/-- The document `"ab\ncd\n"` as loaded from disk. -/
def docTwoLines : Buffer := Buffer.from_file "t.txt" "ab\ncd\n".data

/-- The document `"a\nb\nc\n"` as loaded from disk. -/
def docThreeLines : Buffer := Buffer.from_file "t.txt" "a\nb\nc\n".data

/-- The search-wrap scenario document `"foo\nbar\nfoo\n"`. -/
def docFoo : Buffer := Buffer.from_file "t.txt" "foo\nbar\nfoo\n".data

/-- The document `"abc\n\n"` (text ending in two newline bytes). -/
def docKTwo : Buffer := Buffer.from_file "t.txt" "abc\n\n".data

/-- The replace-all scenario document `"cat cat cat\n"`. -/
def docCat : Buffer := Buffer.from_file "t.txt" "cat cat cat\n".data

/-- C10 chain, step 1: gap moved to position 1 of `"ab"`. -/
def c10g1 : GapBuffer := (GapBuffer.from_string "ab".data).move_gap 1

/-- C10 chain, step 2: gap moved back to position 0. -/
def c10g2 : GapBuffer := c10g1.move_gap 0

/-- C10 chain, step 3: gap moved to position 1 again. -/
def c10g3 : GapBuffer := c10g2.move_gap 1

/-- C1 state: `"abc\n"` after the logged edit `Insert{1, "X"}` was applied. -/
def c1edited : Buffer := docABC.insert 1 ['X']

/-- C1 log: the single-entry history recording that edit. -/
def c1hist : UndoHistory := UndoHistory.new.push (EditOp.Insert 1 ['X'])

/-- C1 result: undo applied to the edited document. -/
def c1undone : Bool × UndoHistory × Buffer := c1hist.undo c1edited

/-- C2 state: Backspace at (1,0) of `"ab\ncd\n"` — the line-join branch. -/
def c2join : Editor :=
  (mkEditor docTwoLines 1 0 .Normal).handle_key ⟨.Backspace, false, false⟩

/-- C2 contrast state: Backspace at (0,2) — the mid-line branch. -/
def c2mid : Editor :=
  (mkEditor docTwoLines 0 2 .Normal).handle_key ⟨.Backspace, false, false⟩

/-- C7 state: the digit '3' typed in GoToLine mode on `"a\nb\nc\n"`. -/
def c7afterDigit : Editor :=
  (mkEditor docThreeLines 0 0 .GoToLine).handle_key ⟨.Char '3', false, false⟩

/-- C7 state: Enter pressed after the digit. -/
def c7afterEnter : Editor := c7afterDigit.handle_key ⟨.Enter, false, false⟩

/-! ## Claim theorems -/

/-- C10 (code bug): the claim that `move_gap` preserves `len()` and
`to_string()` fails.  On the reachable state obtained by
`from_string "ab"` then `move_gap 1`, a further `move_gap 0` reorders the
content to `"ba"` (the relocated prefix is appended to the wrong end of
`after`), and a subsequent `move_gap 1` drops a byte outright
(`after` is cleared wholesale), shrinking `len` from 2 to 1. -/
theorem C10_move_gap_corrupts :
    (GapBuffer.from_string "ab".data).to_string = "ab".data ∧
    (GapBuffer.from_string "ab".data).len = 2 ∧
    c10g1.to_string = "ab".data ∧ c10g1.len = 2 ∧
    c10g2.to_string = "ba".data ∧
    c10g3.len = 1 ∧ c10g3.to_string = "b".data := by decide

/-- C1 (code bug): undo does not restore the initial byte content.  Loading
`"abc\n"` and applying the single logged edit `Insert{1, "X"}` yields
`"aXbc\n"`, but `undo()` (which reports success) produces `"ac\nX"` instead of
`"abc\n"`: the `delete(1, 1)` it issues relocates the gap with the corrupting
`move_gap` and removes the wrong byte. -/
theorem C1_undo_does_not_restore :
    docABC.text.to_string = "abc\n".data ∧
    c1edited.text.to_string = "aXbc\n".data ∧
    c1undone.1 = true ∧
    c1undone.2.2.text.to_string = "ac\nX".data := by decide

/-- C2 (code bug): Backspace at column 0 joins lines by deleting the previous
newline but pushes no Edit Operation, so the log stays empty — while the
sibling mid-line Backspace pushes exactly one `Delete`, showing the omission
is specific to the join branch. -/
theorem C2_backspace_join_pushes_no_op :
    c2join.buffer.text.to_string = "abcd\n".data ∧
    c2join.undo.ops = [] ∧ c2join.undo.pos = 0 ∧
    c2mid.buffer.text.to_string = "a\ncd\n".data ∧
    c2mid.undo.ops = [EditOp.Delete 1 ['b']] ∧ c2mid.undo.pos = 1 := by decide

/-- C6 (code bug): `line_len` returns `index[line+1] - index[line]` with no
subtraction of the line terminator: on `"abc\n"` line 0 has content `"abc"`
(3 bytes) yet `line_len 0 = 4`. -/
theorem C6_line_len_includes_terminator :
    docABC.line_offsets = [0, 4, 4] ∧
    docABC.get_line 0 = "abc".data ∧
    docABC.line_len 0 = 4 := by decide

/-- C7 (code bug): GoToLine is inert.  Typing the digit `'3'` in GoToLine mode
silently drops the editor back to Normal mode (the handler returns
`(None, false)` and the swapped-out mode is never restored), so the following
Enter is handled in Normal mode and inserts a newline: the cursor ends on
line 1 of a mutated document instead of jumping to line 2 of an unchanged
one. -/
theorem C7_goto_line_inert :
    c7afterDigit.mode = EditorMode.Normal ∧
    c7afterDigit.buffer = docThreeLines ∧
    c7afterDigit.cursor_line = 0 ∧ c7afterDigit.cursor_col = 0 ∧
    c7afterEnter.cursor_line = 1 ∧
    c7afterEnter.buffer.text.to_string = "\na\nb\nc\n".data ∧
    c7afterEnter.undo.ops.length = 1 := by decide

/-- C3 counterexample: a document whose text ends in k = 2 newline bytes is
written with zero trailing newlines, not k - 1 = 1:
`trim_end_matches('\n')` strips the whole trailing run. -/
theorem C3_counterexample :
    docKTwo.text.to_string = "abc\n\n".data ∧
    docKTwo.savedContent = "abc".data ∧
    docKTwo.savedContent ≠ "abc\n".data := by decide

/-- C4 counterexample: on `"foo\nbar\nfoo\n"` with the cursor at (2,0),
searching `"foo"` returns the occurrence at (2,0) — the search starts at and
includes the start position, so no wrap to (0,0) happens there. -/
theorem C4_counterexample :
    docFoo.find "foo".data 2 0 = some (2, 0) ∧ ((2, 0) : Nat × Nat) ≠ (0, 0) := by decide

/-- C5 counterexample: on the fresh document (content `"\n"`, 2 lines) the
valid cursor position (1, 0) — the last line, column 0 — maps to offset 1 and
back to (2, 0), not (1, 0): the round trip fails on the last line. -/
theorem C5_counterexample :
    Buffer.new.num_lines = 2 ∧
    Buffer.new.line_len 1 = 0 ∧
    Buffer.new.get_cursor_pos 1 0 = 1 ∧
    Buffer.new.get_line_col 1 = (2, 0) := by decide

/-- Auxiliary: the head of a `dropWhile` result fails the predicate. -/
lemma dropWhile_head_not {p : Byte → Bool} :
    ∀ (l : List Byte) (c : Byte) (rest : List Byte),
      l.dropWhile p = c :: rest → p c = false := by
  intro l
  induction l with
  | nil => intro c rest h; simp [List.dropWhile] at h
  | cons a as ih =>
      intro c rest h
      rw [List.dropWhile_cons] at h
      by_cases hp : p a
      · rw [if_pos hp] at h
        exact ih c rest h
      · rw [if_neg hp] at h
        cases h
        simpa using hp

/-- Auxiliary: the trimmed text never ends in a newline byte. -/
lemma trimEndNewlines_getLast (l : List Byte) :
    (trimEndNewlines l).getLast? ≠ some '\n' := by
  unfold trimEndNewlines
  rw [List.getLast?_reverse]
  intro h
  cases hd : l.reverse.dropWhile (fun c => decide (c = '\n')) with
  | nil => rw [hd] at h; cases h
  | cons c rest =>
      rw [hd] at h
      have hc : c = '\n' := by simpa using h
      have := dropWhile_head_not l.reverse c rest hd
      rw [hc] at this
      simp at this

/-- Auxiliary: any text is its trimmed form followed by a run of newlines. -/
lemma trimEndNewlines_decomp (l : List Byte) :
    ∃ k, l = trimEndNewlines l ++ List.replicate k '\n' := by
  refine ⟨(l.reverse.takeWhile (fun c => decide (c = '\n'))).length, ?_⟩
  unfold trimEndNewlines
  have hrep : l.reverse.takeWhile (fun c => decide (c = '\n')) =
      List.replicate (l.reverse.takeWhile (fun c => decide (c = '\n'))).length '\n' := by
    rw [List.eq_replicate_iff]
    exact ⟨rfl, fun b hb => by simpa using List.mem_takeWhile_imp hb⟩
  conv_lhs =>
    rw [← l.reverse_reverse,
      ← List.takeWhile_append_dropWhile (fun c => decide (c = '\n')) l.reverse]
  rw [List.reverse_append, hrep, List.reverse_replicate]
  simp

/-- C3 (amended): `save`/`save_as` write the document text with ALL trailing
line terminators stripped (not exactly one): the written bytes never end in a
newline, and the internal text is the written bytes followed by the removed
trailing newline run — so a text ending in k ≥ 1 newline bytes is written
ending in zero newline bytes. -/
theorem C3_save_strips_all_trailing_newlines (b : Buffer) :
    b.savedContent.getLast? ≠ some '\n' ∧
    ∃ k, b.text.to_string = b.savedContent ++ List.replicate k '\n' :=
  ⟨trimEndNewlines_getLast _, trimEndNewlines_decomp _⟩

/-- C3 witness: the amended theorem instantiated at the k = 2 document. -/
theorem C3_witness :
    docKTwo.savedContent.getLast? ≠ some '\n' :=
  (C3_save_strips_all_trailing_newlines docKTwo).1

/-- Auxiliary: a position reported by `firstOccur` carries a real match. -/
lemma listStartsWith_of_firstOccur {pat : List Byte} :
    ∀ {l : List Byte} {i : Nat},
      firstOccur pat l = some i → listStartsWith pat (l.drop i) = true := by
  intro l
  induction l with
  | nil =>
      intro i h
      unfold firstOccur at h
      by_cases hp : pat.isEmpty
      · rw [if_pos hp] at h
        cases h
        cases pat with
        | nil => rfl
        | cons p ps => cases hp
      · rw [if_neg hp] at h
        cases h
  | cons c rest ih =>
      intro i h
      unfold firstOccur at h
      by_cases hs : listStartsWith pat (c :: rest) = true
      · rw [if_pos hs] at h
        cases h
        simpa using hs
      · rw [if_neg hs] at h
        cases ho : firstOccur pat rest with
        | none => rw [ho] at h; cases h
        | some j =>
            rw [ho, Option.map_some'] at h
            cases h
            simpa using ih ho

/-- Auxiliary: a match inside a prefix of `l` is a match in `l`. -/
lemma listStartsWith_of_take {pat : List Byte} :
    ∀ (l : List Byte) (n : Nat),
      listStartsWith pat (l.take n) = true → listStartsWith pat l = true := by
  induction pat with
  | nil => intro l n _; rfl
  | cons p ps ih =>
      intro l n h
      cases l with
      | nil =>
          rw [List.take_nil] at h
          exact h
      | cons c cs =>
          cases n with
          | zero => simp [listStartsWith] at h
          | succ m =>
              rw [List.take_succ_cons] at h
              simp only [listStartsWith, Bool.and_eq_true] at h ⊢
              exact ⟨h.1, ih cs m h.2⟩

/-- Auxiliary: if the query occurs nowhere, `find` returns `none`. -/
lemma find_none_of_not_occurs {b : Buffer} {q : List Byte} {fl fc : Nat}
    (h : ¬ occursIn b.text.to_string q) : b.find q fl fc = none := by
  have hdrop : ∀ s p, firstOccur q (b.text.to_string.drop s) = some p → False := by
    intro s p hp
    apply h
    have hsw := listStartsWith_of_firstOccur hp
    rw [List.drop_drop] at hsw
    exact ⟨s + p, hsw⟩
  have htake : ∀ s p, firstOccur q (b.text.to_string.take s) = some p → False := by
    intro s p hp
    apply h
    have hsw := listStartsWith_of_firstOccur hp
    rw [List.drop_take] at hsw
    exact ⟨p, listStartsWith_of_take _ _ hsw⟩
  unfold Buffer.find
  by_cases hq : q.isEmpty
  · rw [if_pos hq]
  · rw [if_neg hq]
    cases h1 : firstOccur q (b.text.to_string.drop (b.searchStart fl fc)) with
    | some p => exact absurd h1 fun hh => hdrop _ _ hh
    | none =>
        by_cases h2 : 0 < b.searchStart fl fc
        · rw [if_pos h2]
          cases h3 : firstOccur q (b.text.to_string.take (b.searchStart fl fc)) with
          | some p => exact absurd h3 fun hh => htake _ _ hh
          | none => rfl
        · rw [if_neg h2]

/-- Auxiliary: `find` only reports positions when the query really occurs. -/
lemma occurs_of_find_some {b : Buffer} {q : List Byte} {fl fc : Nat} {r : Nat × Nat}
    (h : b.find q fl fc = some r) : occursIn b.text.to_string q := by
  unfold Buffer.find at h
  by_cases hq : q.isEmpty
  · rw [if_pos hq] at h
    cases h
  · rw [if_neg hq] at h
    cases h1 : firstOccur q (b.text.to_string.drop (b.searchStart fl fc)) with
    | some p =>
        have hsw := listStartsWith_of_firstOccur h1
        rw [List.drop_drop] at hsw
        exact ⟨_, hsw⟩
    | none =>
        rw [h1] at h
        by_cases h2 : 0 < b.searchStart fl fc
        · rw [if_pos h2] at h
          cases h3 : firstOccur q (b.text.to_string.take (b.searchStart fl fc)) with
          | some p =>
              have hsw := listStartsWith_of_firstOccur h3
              rw [List.drop_take] at hsw
              exact ⟨_, listStartsWith_of_take _ _ hsw⟩
          | none => rw [h3] at h; cases h
        · rw [if_neg h2] at h
          cases h

/-- C4 (amended): `find` is a substring search that starts AT the given
position: it returns `none` for an empty query, returns `none` whenever the
query occurs nowhere, and reports positions only when the query really
occurs; on the document `"foo\nbar\nfoo\n"` the search for `"foo"` from
(2, 0) finds the occurrence at (2, 0) itself (no wrap — the claim expected
(0, 0)), while from (2, 1), where no match exists at or after the start, it
wraps to the occurrence at (0, 0). -/
theorem C4_find_spec :
    (∀ (b : Buffer) (fl fc : Nat), b.find [] fl fc = none) ∧
    (∀ (b : Buffer) (q : List Byte) (fl fc : Nat),
        ¬ occursIn b.text.to_string q → b.find q fl fc = none) ∧
    (∀ (b : Buffer) (q : List Byte) (fl fc : Nat) (r : Nat × Nat),
        b.find q fl fc = some r → occursIn b.text.to_string q) ∧
    docFoo.find "foo".data 2 0 = some (2, 0) ∧
    docFoo.find "foo".data 2 1 = some (0, 0) := by
  refine ⟨?_, ?_, ?_, by decide, by decide⟩
  · intro b fl fc
    unfold Buffer.find
    rfl
  · intro b q fl fc h
    exact find_none_of_not_occurs h
  · intro b q fl fc r h
    exact occurs_of_find_some h

/-- C4 witness: the general clauses instantiated on the scenario document
with an empty query and with a query that occurs nowhere. -/
theorem C4_witness :
    docFoo.find [] 0 0 = none ∧ docFoo.find "qqq".data 0 0 = none :=
  ⟨C4_find_spec.1 docFoo 0 0, C4_find_spec.2.1 docFoo "qqq".data 0 0 (by decide)⟩

/-- Auxiliary: in a sorted list, the head bounds every entry from below. -/
lemma pairwise_head_le_getD (a : Nat) (l : List Nat)
    (h : (a :: l).Pairwise (· ≤ ·)) (n : Nat) (hn : n < (a :: l).length) :
    a ≤ (a :: l).getD n 0 := by
  cases n with
  | zero => simp
  | succ m =>
      rw [List.getD_cons_succ]
      have hm : m < l.length := by simpa using hn
      have hmem : l.getD m 0 ∈ l := by
        rw [List.getD_eq_getElem l 0 hm]
        exact List.getElem_mem hm
      exact (List.pairwise_cons.mp h).1 _ hmem

/-- Auxiliary: on a sorted offset list, the scanning loop of `get_line_col`
returns the line index whose half-open offset span contains `pos`. -/
lemma glcLoop_eq :
    ∀ (i : Nat) (l : List Nat) (pos k : Nat),
      l.Pairwise (· ≤ ·) →
      i + 1 < l.length →
      l.getD i 0 ≤ pos →
      pos < l.getD (i + 1) 0 →
      glcLoop pos l k = some (k + i, pos - l.getD i 0) := by
  intro i
  induction i with
  | zero =>
      intro l pos k _ hlen hlow hhigh
      cases l with
      | nil => simp at hlen
      | cons o1 t =>
          cases t with
          | nil => simp at hlen
          | cons o2 rest =>
              rw [List.getD_cons_succ, List.getD_cons_zero] at hhigh
              rw [List.getD_cons_zero] at hlow ⊢
              unfold glcLoop
              rw [if_pos hhigh]
              simp
  | succ n ih =>
      intro l pos k hp hlen hlow hhigh
      cases l with
      | nil => simp at hlen
      | cons o1 t =>
          cases t with
          | nil => simp at hlen
          | cons o2 rest =>
              have hp' : (o2 :: rest).Pairwise (· ≤ ·) := (List.pairwise_cons.mp hp).2
              have hlen' : n + 1 < (o2 :: rest).length := by simpa using hlen
              have hlow' : (o2 :: rest).getD n 0 ≤ pos := by
                rw [List.getD_cons_succ] at hlow
                exact hlow
              have hhigh' : pos < (o2 :: rest).getD (n + 1) 0 := by
                rw [List.getD_cons_succ] at hhigh
                exact hhigh
              have ho2 : o2 ≤ pos :=
                le_trans (pairwise_head_le_getD o2 rest hp' n (by omega)) hlow'
              unfold glcLoop
              rw [if_neg (by omega)]
              rw [ih (o2 :: rest) pos (k + 1) hp' hlen' hlow' hhigh']
              rw [List.getD_cons_succ]
              have harith : k + 1 + n = k + (n + 1) := by omega
              rw [harith]

/-- C5 (amended): converting (line, column) to an offset and back is the
identity for every cursor position strictly inside a line's offset span
(column < index[i+1] - index[i]), which covers every content column of a
terminator-ended line; it fails on the trailing empty last line, where the
span is empty (see the counterexample). -/
theorem C5_roundtrip_interior (b : Buffer) (i c : Nat)
    (hs : b.line_offsets.Pairwise (· ≤ ·))
    (hi : i + 1 < b.line_offsets.length)
    (hc : b.line_offsets.getD i 0 + c < b.line_offsets.getD (i + 1) 0)
    (hlen : b.line_offsets.getD (i + 1) 0 ≤ b.text.len) :
    b.get_line_col (b.get_cursor_pos i c) = (i, c) := by
  have hpos : b.get_cursor_pos i c = b.line_offsets.getD i 0 + c := by
    unfold Buffer.get_cursor_pos
    simp only [if_neg (show ¬ b.line_offsets.length ≤ i by omega), if_pos hi]
    omega
  rw [hpos]
  unfold Buffer.get_line_col
  simp only [min_eq_left (show b.line_offsets.getD i 0 + c ≤ b.text.len by omega),
    glcLoop_eq i b.line_offsets (b.line_offsets.getD i 0 + c) 0 hs hi (by omega) hc]
  simp

/-- C5 witness: the amended round trip instantiated at line 0, column 2 of
the document `"abc\n"`. -/
theorem C5_witness :
    docABC.get_line_col (docABC.get_cursor_pos 0 2) = (0, 2) :=
  C5_roundtrip_interior docABC 0 2 (by decide) (by decide) (by decide) (by decide)

/-- Auxiliary: the match scanner reports 0 when the pattern occurs nowhere. -/
lemma countGo_zero_of_not_occurs {pat : List Byte} :
    ∀ (fuel : Nat) (text : List Byte),
      ¬ occursIn text pat → countGo pat fuel text = 0 := by
  intro fuel
  induction fuel with
  | zero =>
      intro text _
      cases text <;> rfl
  | succ n ih =>
      intro text h
      cases text with
      | nil => rfl
      | cons c rest =>
          unfold countGo
          rw [if_neg (fun hs => h ⟨0, by simpa using hs⟩)]
          exact ih rest fun hr => h (by
            obtain ⟨i, hi⟩ := hr
            exact ⟨i + 1, by simpa using hi⟩)

/-- Auxiliary: a zero count from the match scanner (run with enough fuel)
means the pattern occurs nowhere. -/
lemma not_occurs_of_countGo_zero {pat : List Byte} (hne : pat ≠ []) :
    ∀ (fuel : Nat) (text : List Byte), text.length ≤ fuel →
      countGo pat fuel text = 0 → ¬ occursIn text pat := by
  have hnil : ¬ occursIn [] pat := by
    rintro ⟨i, hi⟩
    rw [List.drop_nil] at hi
    cases pat with
    | nil => exact hne rfl
    | cons p ps => simp [listStartsWith] at hi
  intro fuel
  induction fuel with
  | zero =>
      intro text hlen _
      have htext : text = [] := List.eq_nil_of_length_eq_zero (by omega)
      rw [htext]
      exact hnil
  | succ n ih =>
      intro text hlen hcount
      cases text with
      | nil => exact hnil
      | cons c rest =>
          unfold countGo at hcount
          by_cases hs : listStartsWith pat (c :: rest) = true
          · rw [if_pos hs] at hcount
            omega
          · rw [if_neg hs] at hcount
            have hnr := ih rest (by simp at hlen; omega) hcount
            rintro ⟨i, hi⟩
            cases i with
            | zero =>
                rw [List.drop_zero] at hi
                exact hs hi
            | succ j => exact hnr ⟨j, by simpa using hi⟩

/-- Auxiliary: for a non-empty pattern, the source's match count is zero
exactly when the pattern occurs nowhere in the text. -/
lemma countMatches_zero_iff {text pat : List Byte} (hne : pat ≠ []) :
    countMatches text pat = 0 ↔ ¬ occursIn text pat := by
  unfold countMatches
  rw [if_neg (by simpa [List.isEmpty_iff] using hne)]
  constructor
  · exact not_occurs_of_countGo_zero hne text.length text le_rfl
  · exact countGo_zero_of_not_occurs text.length text

/-- C8: `replace` returns the non-overlapping occurrence count — zero is a
legitimate result, reported exactly when the pattern occurs nowhere; after
the replace-all pending action executes, the Edit Operation Log is cleared
unconditionally (for every search string, matches or not) and a subsequent
undo is a failing no-op; the scenario document `"cat cat cat\n"` reports
count 3 and becomes `"dog dog dog\n"`. -/
theorem C8_replace_all_spec :
    (∀ (b : Buffer) (old new : List Byte), old ≠ [] →
        ((b.replace old new).2 = 0 ↔ ¬ occursIn b.text.to_string old)) ∧
    (∀ (e : Editor) (s r : String) (cs : Bool),
        e.mode = EditorMode.Replace s r cs true true →
        e.pending_action = none →
        ((e.handle_key ⟨KeyCode.Enter, false, false⟩).undo.ops = [] ∧
         (e.handle_key ⟨KeyCode.Enter, false, false⟩).undo.pos = 0 ∧
         (e.handle_key ⟨KeyCode.Enter, false, false⟩).mode = EditorMode.Normal ∧
         (e.handle_key ⟨KeyCode.Enter, false, false⟩).buffer =
           (e.buffer.replace s.data r.data).1)) ∧
    (∀ (h : UndoHistory) (b : Buffer), h.pos = 0 → h.undo b = (false, h, b)) ∧
    (docCat.replace "cat".data "dog".data).1.text.to_string = "dog dog dog\n".data ∧
    (docCat.replace "cat".data "dog".data).2 = 3 := by
  refine ⟨?_, ?_, ?_, by decide, by decide⟩
  · intro b old new hne
    exact countMatches_zero_iff hne
  · intro e s r cs hm hp
    obtain ⟨buf, cl, cc, st, sq, und, md, pa, qa⟩ := e
    simp only at hm hp
    subst hm
    subst hp
    exact ⟨rfl, rfl, rfl, rfl⟩
  · intro h b hp
    unfold UndoHistory.undo
    rw [if_pos hp]

/-- C8 witness: the clauses instantiated concretely — the scenario editor in
confirmed replace-all mode, a query with zero matches, and an undo at the
empty log. -/
theorem C8_witness :
    (((mkEditor docCat 0 0 (EditorMode.Replace "cat" "dog" false true true)).handle_key
        ⟨KeyCode.Enter, false, false⟩).undo.ops = [] ∧
      ((mkEditor docCat 0 0 (EditorMode.Replace "cat" "dog" false true true)).handle_key
        ⟨KeyCode.Enter, false, false⟩).undo.pos = 0 ∧
      ((mkEditor docCat 0 0 (EditorMode.Replace "cat" "dog" false true true)).handle_key
        ⟨KeyCode.Enter, false, false⟩).mode = EditorMode.Normal ∧
      ((mkEditor docCat 0 0 (EditorMode.Replace "cat" "dog" false true true)).handle_key
        ⟨KeyCode.Enter, false, false⟩).buffer = (docCat.replace "cat".data "dog".data).1) ∧
    ((docCat.replace "qqq".data "x".data).2 = 0 ↔
      ¬ occursIn docCat.text.to_string "qqq".data) ∧
    UndoHistory.new.undo docCat = (false, UndoHistory.new, docCat) :=
  ⟨C8_replace_all_spec.2.1
      (mkEditor docCat 0 0 (EditorMode.Replace "cat" "dog" false true true))
      "cat" "dog" false rfl rfl,
   C8_replace_all_spec.1 docCat "qqq".data "x".data (by decide),
   C8_replace_all_spec.2.2.1 UndoHistory.new docCat rfl⟩

/-- C9: pressing Esc in any non-Normal mode returns to Normal and leaves the
whole document (bytes and modified flag) and the whole Edit Operation Log
(entries and cursor index) unchanged.  The `pending_action = none` hypothesis
is an invariant of reachable states: the drain at the end of every key event
empties the slot. -/
theorem C9_esc_preserves_state (e : Editor)
    (hm : e.mode ≠ EditorMode.Normal)
    (hp : e.pending_action = none) :
    (e.handle_key ⟨KeyCode.Esc, false, false⟩).mode = EditorMode.Normal ∧
    (e.handle_key ⟨KeyCode.Esc, false, false⟩).buffer = e.buffer ∧
    (e.handle_key ⟨KeyCode.Esc, false, false⟩).undo = e.undo := by
  obtain ⟨buf, cl, cc, st, sq, und, md, pa, qa⟩ := e
  simp only at hm hp
  subst hp
  cases md with
  | Normal => exact absurd rfl hm
  | Search q cs bw => exact ⟨rfl, rfl, rfl⟩
  | Replace s rp cs all conf => exact ⟨rfl, rfl, rfl⟩
  | GoToLine => exact ⟨rfl, rfl, rfl⟩
  | Confirm t m opts sel => exact ⟨rfl, rfl, rfl⟩
  | Input t inp hist => exact ⟨rfl, rfl, rfl⟩
  | Help => exact ⟨rfl, rfl, rfl⟩

/-- C9 witness: Esc from Help mode on a concrete editor. -/
theorem C9_witness :
    ((mkEditor docABC 0 0 EditorMode.Help).handle_key ⟨KeyCode.Esc, false, false⟩).mode
        = EditorMode.Normal ∧
    ((mkEditor docABC 0 0 EditorMode.Help).handle_key ⟨KeyCode.Esc, false, false⟩).buffer
        = (mkEditor docABC 0 0 EditorMode.Help).buffer ∧
    ((mkEditor docABC 0 0 EditorMode.Help).handle_key ⟨KeyCode.Esc, false, false⟩).undo
        = (mkEditor docABC 0 0 EditorMode.Help).undo :=
  C9_esc_preserves_state (mkEditor docABC 0 0 EditorMode.Help) (by decide) rfl

end Nova
